import Mathlib

/-
Verification development for the panels-counter repository.

Shallow embedding of the two Viewer components:
- `part_001` (general form): marks with color, optional thickness and section,
  single selection, zoom, add mode, and the grouped CSV report.
- `part_000` (reduced form): marks with color only and the per-color CSV report.

JavaScript numbers are modelled as rationals (ℚ); JS `Record` objects used as
maps are modelled as association lists that preserve key insertion order,
matching the JS own-property enumeration order for non-index string keys.
-/

namespace PanelsCounter

/-- The three section kinds of a mark; source type `SectionType =
"whole" | "half-vertical" | "half-horizontal"` in part_001. -/
inductive SectionType where
  | whole
  | halfVertical
  | halfHorizontal
deriving DecidableEq, Repr

/-- A mark of the general-form viewer (part_001 `type Mark`). The source field
`section` is a Lean keyword, so it is named `sec` here; `thickness` is the
source's `Thickness | null` with `Thickness = 20 | 30 | 40 | 50` (the UI only
ever supplies these four numbers or null). -/
structure Mark where
  id : String
  x : ℚ
  y : ℚ
  color : String
  thickness : Option Nat
  sec : SectionType
deriving DecidableEq, Repr

/-- A color-registry entry (`colorDefs` element / RightPanel `ColorDefinition`). -/
structure ColorDef where
  color : String
  label : String
deriving DecidableEq, Repr

/-- Pointer-to-image transform of `handleAddTickClick`:
`realX = (e.clientX - rect.left) / zoom`. -/
def toImageSpace (pointer origin z : ℚ) : ℚ := (pointer - origin) / z

/-- Image-to-screen transform used for the overlay position
(`left: m.x * zoom`) and image sizing (`size.w * zoom`). -/
def toScreenSpace (coord z : ℚ) : ℚ := coord * z

/-- State of the general-form Viewer (part_001): the useState cells the claims
are about. UI-only cells (showInput, imageSrc, drag data, size) do not interact
with the modelled operations and are omitted. -/
structure ViewerState where
  zoom : ℚ
  addPointMode : Bool
  pointColor : String
  pointThickness : Option Nat
  pointSection : SectionType
  marks : List Mark
  selectedMarkId : Option String
  colorDefs : List ColorDef
deriving DecidableEq, Repr

/-- The initial `colorDefs` registry of part_001. -/
def colorDefsG : List ColorDef :=
  [⟨"red", "Red"⟩, ⟨"yellow", "Yellow"⟩, ⟨"green", "Green"⟩, ⟨"cyan", "Cyan"⟩,
   ⟨"magenta", "Magenta"⟩, ⟨"orange", "Orange"⟩, ⟨"blue", "Blue"⟩,
   ⟨"purple", "Purple"⟩, ⟨"teal", "Teal"⟩, ⟨"pink", "Pink"⟩, ⟨"gold", "Gold"⟩,
   ⟨"dodgerblue", "Dodger Blue"⟩]

/-- Initial state of part_001: `zoom = 1`, no add mode, `pointColor = "red"`,
`pointThickness = null`, `pointSection = "whole"`, no marks, no selection. -/
def init : ViewerState :=
  { zoom := 1
    addPointMode := false
    pointColor := "red"
    pointThickness := none
    pointSection := SectionType.whole
    marks := []
    selectedMarkId := none
    colorDefs := colorDefsG }

/-- `handleAddTickClick` of part_001: when add mode is on, append a fresh mark
whose coordinates are the pointer position mapped to image space and whose
attributes are the current tool attributes. `newId` stands for the
`crypto.randomUUID()` result. -/
def handleAddTickClick (p o : ℚ × ℚ) (newId : String) (s : ViewerState) :
    ViewerState :=
  if s.addPointMode then
    { s with marks := s.marks ++
        [{ id := newId
           x := toImageSpace p.1 o.1 s.zoom
           y := toImageSpace p.2 o.2 s.zoom
           color := s.pointColor
           thickness := s.pointThickness
           sec := s.pointSection }] }
  else s

/-- Canvas `onClick` of part_001: in add mode delegate to `handleAddTickClick`,
otherwise clear the selection. -/
def clickCanvas (p o : ℚ × ℚ) (newId : String) (s : ViewerState) :
    ViewerState :=
  if s.addPointMode then handleAddTickClick p o newId s
  else { s with selectedMarkId := none }

/-- Mark `onClick` of part_001: outside add mode, select the clicked mark and
load its attributes into the tool state; in add mode the handler body is
guarded out (and `stopPropagation` keeps the canvas handler from running). -/
def clickMark (m : Mark) (s : ViewerState) : ViewerState :=
  if s.addPointMode then s
  else if m ∈ s.marks then
    { s with selectedMarkId := some m.id
             pointColor := m.color
             pointThickness := m.thickness
             pointSection := m.sec }
  else s

/-- Add Point button `onClick` of part_001: toggle add mode; when the new value
is true, also clear the selection. -/
def toggleAddMode (s : ViewerState) : ViewerState :=
  let next := !s.addPointMode
  if next then { s with addPointMode := next, selectedMarkId := none }
  else { s with addPointMode := next }

/-- Color select `onChange` of part_001: always update `pointColor`; when a
mark is selected, also patch that mark's color. -/
def changeColor (c : String) (s : ViewerState) : ViewerState :=
  let s1 := { s with pointColor := c }
  match s1.selectedMarkId with
  | some id => { s1 with marks := s1.marks.map (fun m => if m.id = id then { m with color := c } else m) }
  | none => s1

/-- Thickness select `onChange` of part_001: always update `pointThickness`;
when a mark is selected, also patch that mark's thickness. -/
def changeThickness (t : Option Nat) (s : ViewerState) : ViewerState :=
  let s1 := { s with pointThickness := t }
  match s1.selectedMarkId with
  | some id => { s1 with marks := s1.marks.map (fun m => if m.id = id then { m with thickness := t } else m) }
  | none => s1

/-- Section select `onChange` of part_001: always update `pointSection`; when a
mark is selected, also patch that mark's section. -/
def changeSection (sec : SectionType) (s : ViewerState) : ViewerState :=
  let s1 := { s with pointSection := sec }
  match s1.selectedMarkId with
  | some id => { s1 with marks := s1.marks.map (fun m => if m.id = id then { m with sec := sec } else m) }
  | none => s1

/-- `deleteSelected` of part_001: early-return when nothing is selected,
otherwise drop the selected mark and clear the selection. -/
def deleteSelected (s : ViewerState) : ViewerState :=
  match s.selectedMarkId with
  | none => s
  | some id =>
      { s with marks := s.marks.filter (fun m => decide (m.id ≠ id))
               selectedMarkId := none }

/-- `deleteAll` of part_001: `setMarks([])`. It touches no other state cell. -/
def deleteAll (s : ViewerState) : ViewerState :=
  { s with marks := [] }

/-- Zoom In button `onClick` of part_001: `setZoom(z => z + 0.1)`. -/
def zoomIn (s : ViewerState) : ViewerState :=
  { s with zoom := s.zoom + 1/10 }

/-- Zoom Out button `onClick` of part_001:
`setZoom(z => Math.max(0.2, z - 0.1))`. -/
def zoomOut (s : ViewerState) : ViewerState :=
  { s with zoom := max (1/5) (s.zoom - 1/10) }

/-- `updateColorLabel` of part_001: rename the label of the matching registry
entry. -/
def updateColorLabel (c newName : String) (s : ViewerState) : ViewerState :=
  { s with colorDefs := s.colorDefs.map (fun d => if d.color = c then { d with label := newName } else d) }

/-- The user events of the general-form Viewer that touch the modelled state. -/
inductive Event where
  | toggleAddMode
  | clickMark (m : Mark)
  | clickCanvas (p o : ℚ × ℚ) (newId : String)
  | changeColor (c : String)
  | changeThickness (t : Option Nat)
  | changeSection (sec : SectionType)
  | deleteSelected
  | deleteAll
  | zoomIn
  | zoomOut
  | updateColorLabel (c newName : String)

/-- One event-handler invocation of part_001. -/
def step (s : ViewerState) : Event → ViewerState
  | Event.toggleAddMode => toggleAddMode s
  | Event.clickMark m => clickMark m s
  | Event.clickCanvas p o newId => clickCanvas p o newId s
  | Event.changeColor c => changeColor c s
  | Event.changeThickness t => changeThickness t s
  | Event.changeSection sec => changeSection sec s
  | Event.deleteSelected => deleteSelected s
  | Event.deleteAll => deleteAll s
  | Event.zoomIn => zoomIn s
  | Event.zoomOut => zoomOut s
  | Event.updateColorLabel c newName => updateColorLabel c newName s

/-- States reachable from the initial state by any sequence of events. -/
inductive Reachable : ViewerState → Prop where
  | init : Reachable init
  | step {s : ViewerState} (h : Reachable s) (e : Event) : Reachable (step s e)

/-- Per-group section buckets of part_001 `countMarks`:
`{ whole, halfVertical, halfHorizontal }`. -/
structure Counts where
  whole : Nat
  halfVertical : Nat
  halfHorizontal : Nat
deriving DecidableEq, Repr

/-- The all-zero bucket record created on first sight of a key. -/
def emptyCounts : Counts := ⟨0, 0, 0⟩

/-- Increment the bucket selected by a mark's section
(`counts[key].whole++` etc.). -/
def incrSection (sec : SectionType) (c : Counts) : Counts :=
  match sec with
  | SectionType.whole => { c with whole := c.whole + 1 }
  | SectionType.halfVertical => { c with halfVertical := c.halfVertical + 1 }
  | SectionType.halfHorizontal => { c with halfHorizontal := c.halfHorizontal + 1 }

/-- Total number of marks recorded in a bucket record. -/
def totalCounts (c : Counts) : Nat := c.whole + c.halfVertical + c.halfHorizontal

/-- Thickness as it appears inside a group key:
the template piece `${m.thickness ?? "none"}`. -/
def thicknessKeyPart (t : Option Nat) : String :=
  match t with
  | none => "none"
  | some n => toString n

/-- The group key of part_001 `countMarks`: `${m.color}|${m.thickness ?? "none"}`. -/
def markKey (m : Mark) : String := m.color ++ "|" ++ thicknessKeyPart m.thickness

/-- Record the section of one more mark under key `k` in the counts record;
`counts[key]` is created at the end on first sight (JS string-key insertion
order), otherwise updated in place. -/
def bump (k : String) (sec : SectionType) : List (String × Counts) → List (String × Counts)
  | [] => [(k, incrSection sec emptyCounts)]
  | (k1, c) :: rest =>
      if k1 = k then (k1, incrSection sec c) :: rest
      else (k1, c) :: bump k sec rest

/-- part_001 `countMarks`: one pass over the marks, bucketing each mark by
`(color, thickness)` key and section; the association list models the JS
`Record` with its insertion-ordered string keys. -/
def countMarks (marks : List Mark) : List (String × Counts) :=
  marks.foldl (fun acc m => bump (markKey m) m.sec acc) []

/-- Association-list lookup, modelling `counts[key]` access. -/
def lookupC (k : String) : List (String × Counts) → Option Counts
  | [] => none
  | (k1, c) :: rest => if k1 = k then some c else lookupC k rest

/-- Splitting a list of characters at every pipe character, the model of JS
`key.split("|")` (which Lean cannot take from the standard library in
executable form). -/
def splitPipeList : List Char → List (List Char)
  | [] => [[]]
  | ch :: rest =>
      let r := splitPipeList rest
      if ch = '|' then [] :: r
      else
        match r with
        | [] => [[ch]]
        | w :: ws => (ch :: w) :: ws

/-- Model of `key.split("|")` on strings. -/
def splitPipe (s : String) : List String :=
  (splitPipeList s.data).map (fun cs => String.mk cs)

/-- First destructuring component of `const [color, thickness] = key.split("|")`. -/
def keyColor (k : String) : String := (splitPipe k).getD 0 ""

/-- Second destructuring component of `const [color, thickness] = key.split("|")`. -/
def keyThickness (k : String) : String := (splitPipe k).getD 1 ""

/-- Label resolution of part_001 `generateCSVReport`:
`colorDefs.find(c => c.color === color)?.label ?? color`. -/
def labelFor (defs : List ColorDef) (color : String) : String :=
  ((defs.find? (fun d => decide (d.color = color))).map ColorDef.label).getD color

/-- Rounding-up half combination: JS `Math.ceil(n / 2)` on a nonnegative count. -/
def ceilHalf (n : Nat) : Nat := (n + 1) / 2

/-- The derived Sum metric of part_001 `generateCSVReport`:
`whole + Math.ceil(halfVertical / 2) + Math.ceil(halfHorizontal / 2)`. -/
def sumMetric (c : Counts) : Nat :=
  c.whole + ceilHalf c.halfVertical + ceilHalf c.halfHorizontal

/-- One structured row of the general-form report, the fields of the template
`${row++},${label},${thickness === "none" ? "" : thickness},${data.whole},${data.halfVertical},${data.halfHorizontal},${sum}`. -/
structure ReportRow where
  no : Nat
  label : String
  thickness : String
  whole : Nat
  halfVertical : Nat
  halfHorizontal : Nat
  sum : Nat
deriving DecidableEq, Repr

/-- Row construction of part_001 `generateCSVReport` for one counts entry at
row number `row`. -/
def generalRowOf (defs : List ColorDef) (row : Nat) (e : String × Counts) : ReportRow :=
  { no := row
    label := labelFor defs (keyColor e.1)
    thickness := if keyThickness e.1 = "none" then "" else keyThickness e.1
    whole := e.2.whole
    halfVertical := e.2.halfVertical
    halfHorizontal := e.2.halfHorizontal
    sum := sumMetric e.2 }

/-- The `Object.entries(counts).forEach` loop of part_001 `generateCSVReport`
with its mutable `row` counter. -/
def generalRowsAux (defs : List ColorDef) : List (String × Counts) → Nat → List ReportRow
  | [], _ => []
  | e :: rest, row => generalRowOf defs row e :: generalRowsAux defs rest (row + 1)

/-- The rows of the general-form report, in the order the loop emits them
(`row` starts at 1). -/
def generalReportRows (defs : List ColorDef) (marks : List Mark) : List ReportRow :=
  generalRowsAux defs (countMarks marks) 1

/-- CSV serialization of one general-form row (fields joined by commas, newline
terminated), exactly the template literal of part_001. -/
def generalRowLine (r : ReportRow) : String :=
  toString r.no ++ "," ++ r.label ++ "," ++ r.thickness ++ "," ++
    toString r.whole ++ "," ++ toString r.halfVertical ++ "," ++
    toString r.halfHorizontal ++ "," ++ toString r.sum ++ "\n"

/-- part_001 `generateCSVReport` up to the text payload: header plus one line
per counts entry (the Blob/download plumbing is the external sink). -/
def generateCSVReport (defs : List ColorDef) (marks : List Mark) : String :=
  (generalReportRows defs marks).foldl (fun csv r => csv ++ generalRowLine r)
    "No,Color Label,Thickness (mm),Whole,0.5 Vertical,0.5 Horizontal,Sum\n"

/-- A mark of the reduced-form viewer (part_000 `type Mark`): color only. -/
structure Mark0 where
  id : String
  x : ℚ
  y : ℚ
  color : String
deriving DecidableEq, Repr

/-- The initial `colorDefs` registry of part_000. -/
def colorDefs0 : List ColorDef :=
  [⟨"red", "Red"⟩, ⟨"yellow", "Yellow"⟩, ⟨"lime", "Green"⟩, ⟨"cyan", "Cyan"⟩,
   ⟨"magenta", "Magenta"⟩, ⟨"white", "White"⟩, ⟨"black", "Black"⟩]

/-- part_000 `removeMark`: `setMarks(prev => prev.filter(t => t.id !== id))`. -/
def removeMark (id : String) (marks : List Mark0) : List Mark0 :=
  marks.filter (fun m => decide (m.id ≠ id))

/-- One step of part_000 `countMarks`:
`counts[m.color] = (counts[m.color] || 0) + 1`. -/
def bump0 (k : String) : List (String × Nat) → List (String × Nat)
  | [] => [(k, 1)]
  | (k1, n) :: rest =>
      if k1 = k then (k1, n + 1) :: rest
      else (k1, n) :: bump0 k rest

/-- part_000 `countMarks`: per-color totals over the mark list. -/
def countMarks0 (marks : List Mark0) : List (String × Nat) :=
  marks.foldl (fun acc m => bump0 m.color acc) []

/-- Association-list lookup for the reduced counts record. -/
def lookupN (k : String) : List (String × Nat) → Option Nat
  | [] => none
  | (k1, n) :: rest => if k1 = k then some n else lookupN k rest

/-- The value of `markCounts[c.color] || 0` (an absent key reads as 0). -/
def countColor (marks : List Mark0) (c : String) : Nat :=
  (lookupN c (countMarks0 marks)).getD 0

/-- One structured row of the reduced-form report:
`${index + 1},${c.label},${markCounts[c.color] || 0}`. -/
structure ReducedRow where
  no : Nat
  label : String
  count : Nat
deriving DecidableEq, Repr

/-- The `colorDefs.forEach((c, index) => ...)` loop of part_000
`generateCSVReport`: `index` advances over every registry entry, a row is
emitted only when `markCounts[c.color] > 0` (an absent key compares as
`undefined > 0`, which is false). -/
def reducedRowsAux (marks : List Mark0) : List ColorDef → Nat → List ReducedRow
  | [], _ => []
  | c :: rest, index =>
      if countColor marks c.color > 0 then
        ⟨index + 1, c.label, countColor marks c.color⟩ :: reducedRowsAux marks rest (index + 1)
      else reducedRowsAux marks rest (index + 1)

/-- The rows of the reduced-form report in registry order. -/
def reducedReportRows (defs : List ColorDef) (marks : List Mark0) : List ReducedRow :=
  reducedRowsAux marks defs 0

/-- CSV serialization of one reduced-form row. -/
def reducedRowLine (r : ReducedRow) : String :=
  toString r.no ++ "," ++ r.label ++ "," ++ toString r.count ++ "\n"

/-- part_000 `generateCSVReport` up to the text payload. -/
def reducedCSVReport (defs : List ColorDef) (marks : List Mark0) : String :=
  (reducedReportRows defs marks).foldl (fun csv r => csv ++ reducedRowLine r) "No,Label,Count\n"

/-- A mark at image position (10, 10), used as concrete input below. -/
def mkA : Mark := ⟨"a", 10, 10, "red", none, SectionType.whole⟩

/-- A concrete edit-mode state: one mark present and selected (the state the
Viewer is in after creating mark "a" and clicking it). -/
def sEdit : ViewerState := { init with marks := [mkA], selectedMarkId := some "a" }

/-- The edit-mode state after changing the color tool attribute to blue. -/
def sAfterEdit : ViewerState := changeColor "blue" sEdit

/-- The state after re-enabling add mode from the edited state. -/
def sReAdd : ViewerState := toggleAddMode sAfterEdit

/-- The state after creating a new mark "b" by a canvas click in add mode. -/
def sFinal : ViewerState := clickCanvas (20, 20) (0, 0) "b" sReAdd

/-- Count of a group's marks with a given section, the claim-side reading of
one bucket of `countMarks`: the number of marks whose group key is `k` and
whose section is `sec`. -/
def countSec (marks : List Mark) (k : String) (sec : SectionType) : Nat :=
  (marks.filter (fun m => decide (markKey m = k ∧ m.sec = sec))).length

/-- The claim-side bucket record for group `k`: each field counts the group's
marks with the corresponding section. -/
def countsOfKey (marks : List Mark) (k : String) : Counts :=
  ⟨countSec marks k SectionType.whole,
   countSec marks k SectionType.halfVertical,
   countSec marks k SectionType.halfHorizontal⟩

/-- Group-discovery order, the claim-side description of the emitted key
order: each group key appears once, at the position of the first mark of that
group in creation order. -/
def discoveryOrder (marks : List Mark) : List String :=
  marks.foldl (fun ks m => if markKey m ∈ ks then ks else ks ++ [markKey m]) []

/-- Position of a color inside the registry (first match; one past the end
when absent), used to phrase the claim "rows appear in registry order". -/
def registryIndex : List ColorDef → String → Nat
  | [], _ => 0
  | d :: rest, c => if d.color = c then 0 else registryIndex rest c + 1

/-- The color (key prefix) of each report row of the general form, in emitted
order. -/
def rowColorsOfReport (marks : List Mark) : List String :=
  (countMarks marks).map (fun e => keyColor e.1)

/-- Whether a sequence of colors is ordered by registry position — the
claim-side meaning of "rows appear in ColorDefinition registry order". -/
def sortedByRegistry (defs : List ColorDef) : List String → Bool
  | [] => true
  | [_] => true
  | a :: b :: rest =>
      decide (registryIndex defs a ≤ registryIndex defs b) && sortedByRegistry defs (b :: rest)

/-- The aggregation example of the spec: two red/20/half-vertical marks and one
red/20/whole mark. -/
def exMarks : List Mark :=
  [⟨"m1", 0, 0, "red", some 20, SectionType.halfVertical⟩,
   ⟨"m2", 0, 0, "red", some 20, SectionType.halfVertical⟩,
   ⟨"m3", 0, 0, "red", some 20, SectionType.whole⟩]

/-- Marks created in the order blue first, then red — the registry-order
example of the spec with the actual part_001 registry. -/
def cexMarks : List Mark :=
  [⟨"m1", 0, 0, "blue", none, SectionType.whole⟩,
   ⟨"m2", 0, 0, "red", none, SectionType.whole⟩]

/-- A general-form mark whose color "brown" occurs nowhere in the part_001
registry. -/
def brownMark : Mark := ⟨"m1", 0, 0, "brown", none, SectionType.whole⟩

lemma zoom_toggleAddMode (s : ViewerState) : (toggleAddMode s).zoom = s.zoom := by
  cases h : s.addPointMode <;> simp [toggleAddMode, h]

lemma zoom_clickMark (m : Mark) (s : ViewerState) : (clickMark m s).zoom = s.zoom := by
  unfold clickMark; split; rfl; split <;> rfl

lemma zoom_handleAddTickClick (p o : ℚ × ℚ) (newId : String) (s : ViewerState) :
    (handleAddTickClick p o newId s).zoom = s.zoom := by
  unfold handleAddTickClick; split <;> rfl

lemma zoom_clickCanvas (p o : ℚ × ℚ) (newId : String) (s : ViewerState) :
    (clickCanvas p o newId s).zoom = s.zoom := by
  unfold clickCanvas; split
  case isTrue => exact zoom_handleAddTickClick p o newId s
  case isFalse => rfl

lemma zoom_changeColor (c : String) (s : ViewerState) : (changeColor c s).zoom = s.zoom := by
  unfold changeColor; cases s.selectedMarkId <;> rfl

lemma zoom_changeThickness (t : Option Nat) (s : ViewerState) :
    (changeThickness t s).zoom = s.zoom := by
  unfold changeThickness; cases s.selectedMarkId <;> rfl

lemma zoom_changeSection (sec : SectionType) (s : ViewerState) :
    (changeSection sec s).zoom = s.zoom := by
  unfold changeSection; cases s.selectedMarkId <;> rfl

lemma zoom_deleteSelected (s : ViewerState) : (deleteSelected s).zoom = s.zoom := by
  unfold deleteSelected; cases s.selectedMarkId <;> rfl

lemma zoom_updateColorLabel (c newName : String) (s : ViewerState) :
    (updateColorLabel c newName s).zoom = s.zoom := rfl

/-- Every reachable state keeps the zoom factor at or above the floor 1/5. -/
lemma zoom_invariant {s : ViewerState} (h : Reachable s) : (1:ℚ)/5 ≤ s.zoom := by
  induction h with
  | init => norm_num [init]
  | step h e ih =>
    cases e with
    | toggleAddMode => rw [step, zoom_toggleAddMode]; exact ih
    | clickMark m => rw [step, zoom_clickMark]; exact ih
    | clickCanvas p o newId => rw [step, zoom_clickCanvas]; exact ih
    | changeColor c => rw [step, zoom_changeColor]; exact ih
    | changeThickness t => rw [step, zoom_changeThickness]; exact ih
    | changeSection sec => rw [step, zoom_changeSection]; exact ih
    | deleteSelected => rw [step, zoom_deleteSelected]; exact ih
    | deleteAll => exact ih
    | zoomIn => show (1:ℚ)/5 ≤ _ + 1/10; linarith
    | zoomOut => exact le_max_left _ _
    | updateColorLabel c newName => exact ih

lemma addPM_clickMark (m : Mark) (s : ViewerState) :
    (clickMark m s).addPointMode = s.addPointMode := by
  unfold clickMark; split; rfl; split <;> rfl

lemma addPM_handleAddTickClick (p o : ℚ × ℚ) (newId : String) (s : ViewerState) :
    (handleAddTickClick p o newId s).addPointMode = s.addPointMode := by
  unfold handleAddTickClick; split <;> rfl

lemma addPM_clickCanvas (p o : ℚ × ℚ) (newId : String) (s : ViewerState) :
    (clickCanvas p o newId s).addPointMode = s.addPointMode := by
  unfold clickCanvas; split
  case isTrue => exact addPM_handleAddTickClick p o newId s
  case isFalse => rfl

lemma addPM_changeColor (c : String) (s : ViewerState) :
    (changeColor c s).addPointMode = s.addPointMode := by
  unfold changeColor; cases s.selectedMarkId <;> rfl

lemma addPM_changeThickness (t : Option Nat) (s : ViewerState) :
    (changeThickness t s).addPointMode = s.addPointMode := by
  unfold changeThickness; cases s.selectedMarkId <;> rfl

lemma addPM_changeSection (sec : SectionType) (s : ViewerState) :
    (changeSection sec s).addPointMode = s.addPointMode := by
  unfold changeSection; cases s.selectedMarkId <;> rfl

lemma addPM_deleteSelected (s : ViewerState) :
    (deleteSelected s).addPointMode = s.addPointMode := by
  unfold deleteSelected; cases s.selectedMarkId <;> rfl

lemma sel_handleAddTickClick (p o : ℚ × ℚ) (newId : String) (s : ViewerState) :
    (handleAddTickClick p o newId s).selectedMarkId = s.selectedMarkId := by
  unfold handleAddTickClick; split <;> rfl

lemma sel_changeColor (c : String) (s : ViewerState) :
    (changeColor c s).selectedMarkId = s.selectedMarkId := by
  unfold changeColor; cases s.selectedMarkId <;> rfl

lemma sel_changeThickness (t : Option Nat) (s : ViewerState) :
    (changeThickness t s).selectedMarkId = s.selectedMarkId := by
  unfold changeThickness; cases s.selectedMarkId <;> rfl

lemma sel_changeSection (sec : SectionType) (s : ViewerState) :
    (changeSection sec s).selectedMarkId = s.selectedMarkId := by
  unfold changeSection; cases s.selectedMarkId <;> rfl

/-- In every reachable state, add mode excludes a live selection. -/
lemma addMode_excludes_selection {s : ViewerState} (h : Reachable s) :
    s.addPointMode = true → s.selectedMarkId = none := by
  induction h with
  | init => intro _; rfl
  | @step s1 h e ih =>
    cases e with
    | toggleAddMode =>
      intro hadd
      cases hpm : s1.addPointMode with
      | true => rw [step] at hadd ⊢; simp [toggleAddMode, hpm] at hadd
      | false => rw [step]; simp [toggleAddMode, hpm]
    | clickMark m =>
      intro hadd
      rw [step] at hadd ⊢
      rw [addPM_clickMark] at hadd
      unfold clickMark
      rw [hadd]
      simp only [if_true]
      exact ih hadd
    | clickCanvas p o newId =>
      intro hadd
      rw [step] at hadd ⊢
      rw [addPM_clickCanvas] at hadd
      unfold clickCanvas
      rw [hadd]
      simp only [if_true]
      rw [sel_handleAddTickClick]
      exact ih hadd
    | changeColor c =>
      intro hadd
      rw [step] at hadd ⊢
      rw [addPM_changeColor] at hadd
      rw [sel_changeColor]
      exact ih hadd
    | changeThickness t =>
      intro hadd
      rw [step] at hadd ⊢
      rw [addPM_changeThickness] at hadd
      rw [sel_changeThickness]
      exact ih hadd
    | changeSection sec =>
      intro hadd
      rw [step] at hadd ⊢
      rw [addPM_changeSection] at hadd
      rw [sel_changeSection]
      exact ih hadd
    | deleteSelected =>
      intro hadd
      rw [step] at hadd ⊢
      rw [addPM_deleteSelected] at hadd
      unfold deleteSelected
      cases hsel : s1.selectedMarkId with
      | none => exact hsel
      | some id => rfl
    | deleteAll => exact ih
    | zoomIn => exact ih
    | zoomOut => exact ih
    | updateColorLabel c newName => exact ih

/-- Claim C2, counterexample: in the concrete edit-mode state `sEdit` (one mark
present and selected), `deleteAll` empties the collection but the selection is
NOT reset to none — it still holds mark id "a" — so the claim that the clear
operation always resets the selection to Idle is false on the code. -/
theorem c2_counterexample :
    ¬ ((deleteAll sEdit).marks = [] ∧ (deleteAll sEdit).selectedMarkId = none) := by
  decide

/-- Claim C2 as amended: after `deleteAll` the mark collection is empty, and
the selection is left exactly as it was (the code's `deleteAll` only runs
`setMarks([])` and never touches `selectedMarkId`). -/
theorem c2_amended_deleteAll_keeps_selection (s : ViewerState) :
    (deleteAll s).marks = [] ∧ (deleteAll s).selectedMarkId = s.selectedMarkId :=
  ⟨rfl, rfl⟩

/-- Claim C6, counterexample: at zoom 2 and image-space coordinate 3, the
spec's triple composition toScreenSpace ∘ toImageSpace ∘ toScreenSpace yields
6, not the original coordinate 3, so the claim that the triple composition
recovers (x, y) is false (exactly, over the rationals). -/
theorem c6_counterexample :
    toScreenSpace (toImageSpace (toScreenSpace 3 2) 0 2) 2 = 6 ∧ (6 : ℚ) ≠ 3 := by
  norm_num [toScreenSpace, toImageSpace]

/-- Claim C6 as amended: for any zoom z ≠ 0, the two-transform round trips are
the identity — toImageSpace at image origin 0 inverts toScreenSpace on
image-space coordinates, and toScreenSpace inverts toImageSpace on screen
positions — so the triple composition of the claim recovers the screen
position toScreenSpace(x, z), not x itself. -/
theorem c6_amended_round_trip (z x p : ℚ) (hz : z ≠ 0) :
    toImageSpace (toScreenSpace x z) 0 z = x ∧
    toScreenSpace (toImageSpace p 0 z) z = p ∧
    toScreenSpace (toImageSpace (toScreenSpace x z) 0 z) z = toScreenSpace x z := by
  unfold toImageSpace toScreenSpace
  refine ⟨?_, ?_, ?_⟩
  · rw [sub_zero, mul_div_cancel_right₀ _ hz]
  · rw [sub_zero, div_mul_cancel₀ _ hz]
  · rw [sub_zero, mul_div_cancel_right₀ _ hz]

/-- Witness for the amended C6 at zoom 2, image coordinate 3 and screen
position 5. -/
theorem c6_amended_round_trip_witness :
    (2 : ℚ) ≠ 0 ∧
    (toImageSpace (toScreenSpace 3 2) 0 2 = 3 ∧
     toScreenSpace (toImageSpace 5 0 2) 2 = 5 ∧
     toScreenSpace (toImageSpace (toScreenSpace 3 2) 0 2) 2 = toScreenSpace 3 2) :=
  ⟨by norm_num, c6_amended_round_trip 2 3 5 (by norm_num)⟩

/-- Claim C7: add mode and a live selection are mutually exclusive in every
state reachable from the initial state — the transition enabling add mode
clears any selection, and no reachable transition selects a mark while add
mode is active. -/
theorem c7_add_mode_excludes_selection (s : ViewerState) (h : Reachable s)
    (hadd : s.addPointMode = true) : s.selectedMarkId = none :=
  addMode_excludes_selection h hadd

/-- Witness for C7: the state reached from the initial state by enabling add
mode is reachable, has add mode on, and holds no selection. -/
theorem c7_add_mode_excludes_selection_witness :
    Reachable (step init Event.toggleAddMode) ∧
    (step init Event.toggleAddMode).addPointMode = true ∧
    (step init Event.toggleAddMode).selectedMarkId = none :=
  ⟨Reachable.step Reachable.init Event.toggleAddMode, rfl,
   c7_add_mode_excludes_selection _ (Reachable.step Reachable.init Event.toggleAddMode) rfl⟩

/-- Claim C8: zoom in adds exactly 1/10 with no ceiling, zoom out subtracts
1/10 clamped below at 1/5, and consequently every state reachable from the
initial zoom of 1 satisfies zoom ≥ 1/5. -/
theorem c8_zoom_step_and_floor :
    (∀ s : ViewerState, (zoomIn s).zoom = s.zoom + 1/10) ∧
    (∀ s : ViewerState, (zoomOut s).zoom = max (1/5) (s.zoom - 1/10)) ∧
    (∀ s : ViewerState, Reachable s → (1:ℚ)/5 ≤ s.zoom) :=
  ⟨fun _ => rfl, fun _ => rfl, fun _ h => zoom_invariant h⟩

/-- Witness for C8 at the initial state (which is reachable and has zoom 1). -/
theorem c8_zoom_step_and_floor_witness :
    (zoomIn init).zoom = init.zoom + 1/10 ∧
    (zoomOut init).zoom = max (1/5) (init.zoom - 1/10) ∧
    (Reachable init ∧ (1:ℚ)/5 ≤ init.zoom) :=
  ⟨c8_zoom_step_and_floor.1 init, c8_zoom_step_and_floor.2.1 init,
   Reachable.init, c8_zoom_step_and_floor.2.2 init Reachable.init⟩

/-- Claim C9: `deleteSelected` with no selection returns the state unchanged
(marks and selection included), and `removeMark` with an id absent from the
store returns the mark list unchanged and is idempotent; both are total, so no
error is possible. -/
theorem c9_absent_deletes_are_noops :
    (∀ s : ViewerState, s.selectedMarkId = none → deleteSelected s = s) ∧
    (∀ (id : String) (marks : List Mark0), (∀ m ∈ marks, m.id ≠ id) →
      removeMark id marks = marks) ∧
    (∀ (id : String) (marks : List Mark0),
      removeMark id (removeMark id marks) = removeMark id marks) := by
  refine ⟨?_, ?_, ?_⟩
  · intro s h
    unfold deleteSelected
    rw [h]
  · intro id marks h
    unfold removeMark
    rw [List.filter_eq_self]
    intro m hm
    exact decide_eq_true (h m hm)
  · intro id marks
    unfold removeMark
    rw [List.filter_eq_self]
    intro m hm
    exact (List.mem_filter.mp hm).2

/-- Witness for C9: the initial state has no selection and `deleteSelected`
leaves it unchanged; `removeMark "z"` on a store not containing id "z" leaves
the store unchanged. -/
theorem c9_absent_deletes_are_noops_witness :
    (init.selectedMarkId = none ∧ deleteSelected init = init) ∧
    ((∀ m ∈ [Mark0.mk "a" 0 0 "red"], m.id ≠ "z") ∧
      removeMark "z" [Mark0.mk "a" 0 0 "red"] = [Mark0.mk "a" 0 0 "red"]) :=
  ⟨⟨rfl, c9_absent_deletes_are_noops.1 init rfl⟩,
   ⟨by decide, c9_absent_deletes_are_noops.2.1 "z" [Mark0.mk "a" 0 0 "red"] (by decide)⟩⟩

lemma changeColor_selected (c id : String) (s : ViewerState) (h : s.selectedMarkId = some id) :
    changeColor c s = { s with pointColor := c, marks := s.marks.map (fun m => if m.id = id then { m with color := c } else m) } := by
  simp [changeColor, h]

lemma changeThickness_selected (t : Option Nat) (id : String) (s : ViewerState)
    (h : s.selectedMarkId = some id) :
    changeThickness t s = { s with pointThickness := t, marks := s.marks.map (fun m => if m.id = id then { m with thickness := t } else m) } := by
  simp [changeThickness, h]

lemma changeSection_selected (sec : SectionType) (id : String) (s : ViewerState)
    (h : s.selectedMarkId = some id) :
    changeSection sec s = { s with pointSection := sec, marks := s.marks.map (fun m => if m.id = id then { m with sec := sec } else m) } := by
  simp [changeSection, h]

lemma mem_map_patch {l : List Mark} {m : Mark} (hm : m ∈ l) {id : String}
    (hne : m.id ≠ id) (g : Mark → Mark) :
    m ∈ l.map (fun m1 => if m1.id = id then g m1 else m1) :=
  List.mem_map.mpr ⟨m, hm, if_neg hne⟩

/-- Claim C4 as amended: while a mark is selected, changing a tool attribute
patches exactly that field on marks carrying the selected id (every mark with a
different id is unchanged and still present), AND the new value is also stored
in the shared tool attribute, which is the default used for marks created
later — the final clause of the original claim fails on the code. -/
theorem c4_amended_edit_patches_selected_and_default (s : ViewerState) (id : String)
    (h : s.selectedMarkId = some id) (c : String) (t : Option Nat) (sec : SectionType) :
    ((changeColor c s).pointColor = c ∧
     (changeColor c s).marks = s.marks.map (fun m => if m.id = id then { m with color := c } else m)) ∧
    ((changeThickness t s).pointThickness = t ∧
     (changeThickness t s).marks = s.marks.map (fun m => if m.id = id then { m with thickness := t } else m)) ∧
    ((changeSection sec s).pointSection = sec ∧
     (changeSection sec s).marks = s.marks.map (fun m => if m.id = id then { m with sec := sec } else m)) ∧
    (∀ m ∈ s.marks, m.id ≠ id →
      m ∈ (changeColor c s).marks ∧ m ∈ (changeThickness t s).marks ∧ m ∈ (changeSection sec s).marks) := by
  rw [changeColor_selected c id s h, changeThickness_selected t id s h,
    changeSection_selected sec id s h]
  refine ⟨⟨rfl, rfl⟩, ⟨rfl, rfl⟩, ⟨rfl, rfl⟩, ?_⟩
  intro m hm hne
  exact ⟨mem_map_patch hm hne _, mem_map_patch hm hne _, mem_map_patch hm hne _⟩

/-- Witness for the amended C4 at the concrete edit-mode state `sEdit`. -/
theorem c4_amended_edit_patches_selected_and_default_witness :
    sEdit.selectedMarkId = some "a" ∧
    (((changeColor "blue" sEdit).pointColor = "blue" ∧
      (changeColor "blue" sEdit).marks = sEdit.marks.map (fun m => if m.id = "a" then { m with color := "blue" } else m)) ∧
     ((changeThickness (some 30) sEdit).pointThickness = some 30 ∧
      (changeThickness (some 30) sEdit).marks = sEdit.marks.map (fun m => if m.id = "a" then { m with thickness := some 30 } else m)) ∧
     ((changeSection SectionType.halfVertical sEdit).pointSection = SectionType.halfVertical ∧
      (changeSection SectionType.halfVertical sEdit).marks = sEdit.marks.map (fun m => if m.id = "a" then { m with sec := SectionType.halfVertical } else m)) ∧
     (∀ m ∈ sEdit.marks, m.id ≠ "a" →
       m ∈ (changeColor "blue" sEdit).marks ∧
       m ∈ (changeThickness (some 30) sEdit).marks ∧
       m ∈ (changeSection SectionType.halfVertical sEdit).marks)) :=
  ⟨rfl, c4_amended_edit_patches_selected_and_default sEdit "a" rfl "blue" (some 30)
    SectionType.halfVertical⟩

/-- Claim C4, counterexample: starting from `sEdit` (tool color "red", mark "a"
selected), changing the color to blue and then creating a new mark "b" in add
mode yields mark "b" with color "blue": the change made while editing DID
become the default applied to a mark created later, refuting the claim's final
clause. -/
theorem c4_counterexample :
    sEdit.pointColor = "red" ∧
    sFinal.marks.map (fun m => (m.id, m.color)) = [("a", "blue"), ("b", "blue")] := by
  decide

lemma lookupC_bump_self (k : String) (sec : SectionType) (l : List (String × Counts)) :
    lookupC k (bump k sec l) = some (incrSection sec ((lookupC k l).getD emptyCounts)) := by
  induction l with
  | nil => simp [bump, lookupC]
  | cons e rest ih =>
    obtain ⟨k1, c⟩ := e
    by_cases h : k1 = k
    · subst h
      simp [bump, lookupC]
    · simp [bump, lookupC, h, ih]

lemma lookupC_bump_ne {q k : String} (h : q ≠ k) (sec : SectionType)
    (l : List (String × Counts)) : lookupC q (bump k sec l) = lookupC q l := by
  induction l with
  | nil =>
    simp only [bump, lookupC]
    rw [if_neg (fun hk => h hk.symm)]
  | cons e rest ih =>
    obtain ⟨k1, c⟩ := e
    simp only [bump]
    by_cases hk : k1 = k
    · rw [if_pos hk]
      subst hk
      simp only [lookupC]
      rw [if_neg (fun hq => h hq.symm), if_neg (fun hq => h hq.symm)]
    · rw [if_neg hk]
      simp only [lookupC]
      by_cases hq : k1 = q
      · rw [if_pos hq, if_pos hq]
      · rw [if_neg hq, if_neg hq]
        exact ih

lemma bump_keys (k : String) (sec : SectionType) (l : List (String × Counts)) :
    (bump k sec l).map Prod.fst =
      if k ∈ l.map Prod.fst then l.map Prod.fst else l.map Prod.fst ++ [k] := by
  induction l with
  | nil => simp [bump]
  | cons e rest ih =>
    obtain ⟨k1, c⟩ := e
    simp only [bump]
    by_cases h : k1 = k
    · rw [if_pos h]
      subst h
      simp [List.mem_cons]
    · rw [if_neg h]
      simp only [List.map_cons, ih, List.mem_cons]
      by_cases hmem : k ∈ rest.map Prod.fst
      · rw [if_pos hmem, if_pos (Or.inr hmem)]
      · rw [if_neg hmem,
          if_neg (fun hor => hor.elim (fun h1 => h h1.symm) (fun h2 => hmem h2))]
        rfl

lemma countMarks_concat (ms : List Mark) (m : Mark) :
    countMarks (ms ++ [m]) = bump (markKey m) m.sec (countMarks ms) := by
  simp [countMarks, List.foldl_append]

lemma countSec_concat (ms : List Mark) (m : Mark) (k : String) (sec : SectionType) :
    countSec (ms ++ [m]) k sec =
      countSec ms k sec + (if markKey m = k ∧ m.sec = sec then 1 else 0) := by
  simp only [countSec, List.filter_append, List.length_append, List.filter]
  split <;> simp_all

lemma countsOfKey_concat (ms : List Mark) (m : Mark) (k : String) :
    countsOfKey (ms ++ [m]) k =
      if markKey m = k then incrSection m.sec (countsOfKey ms k) else countsOfKey ms k := by
  by_cases hk : markKey m = k <;>
    cases hsec : m.sec <;>
      simp [countsOfKey, countSec_concat, hk, hsec, incrSection]

lemma lookupC_countMarks (marks : List Mark) (k : String) :
    (lookupC k (countMarks marks)).getD emptyCounts = countsOfKey marks k := by
  induction marks using List.reverseRecOn with
  | nil => simp [countMarks, lookupC, countsOfKey, countSec, emptyCounts]
  | append_singleton ms m ih =>
    rw [countMarks_concat, countsOfKey_concat]
    by_cases hk : markKey m = k
    · subst hk
      rw [lookupC_bump_self, if_pos rfl, Option.getD_some, ih]
    · rw [lookupC_bump_ne (fun hq => hk hq.symm), if_neg hk, ih]

lemma keys_foldl_bump_nodup (marks : List Mark) :
    ∀ acc : List (String × Counts), (acc.map Prod.fst).Nodup →
      (((marks.foldl (fun a m => bump (markKey m) m.sec a) acc)).map Prod.fst).Nodup := by
  induction marks with
  | nil => intro acc h; exact h
  | cons m ms ih =>
    intro acc h
    rw [List.foldl_cons]
    refine ih (bump (markKey m) m.sec acc) ?_
    rw [bump_keys]
    split
    · exact h
    · next hnot => exact List.Nodup.append h (List.nodup_singleton _) (by simpa using hnot)

lemma countMarks_keys_nodup (marks : List Mark) :
    ((countMarks marks).map Prod.fst).Nodup :=
  keys_foldl_bump_nodup marks [] (by simp)

lemma lookupC_eq_of_mem {l : List (String × Counts)} (hnd : (l.map Prod.fst).Nodup)
    {k : String} {c : Counts} (hm : (k, c) ∈ l) : lookupC k l = some c := by
  induction l with
  | nil => cases hm
  | cons e rest ih =>
    obtain ⟨k1, c1⟩ := e
    rw [List.map_cons] at hnd
    obtain ⟨hnotin, hnd2⟩ := List.nodup_cons.mp hnd
    rcases List.mem_cons.mp hm with h | h
    · cases h
      simp [lookupC]
    · have hk1 : k1 ≠ k := by
        intro hkk
        subst hkk
        exact hnotin (List.mem_map.mpr ⟨(k1, c), h, rfl⟩)
      simp only [lookupC]
      rw [if_neg hk1]
      exact ih hnd2 h

lemma countMarks_mem_eq {marks : List Mark} {k : String} {c : Counts}
    (h : (k, c) ∈ countMarks marks) : c = countsOfKey marks k := by
  have hl := lookupC_eq_of_mem (countMarks_keys_nodup marks) h
  have := lookupC_countMarks marks k
  rw [hl, Option.getD_some] at this
  exact this

lemma totalCounts_incrSection (sec : SectionType) (c : Counts) :
    totalCounts (incrSection sec c) = totalCounts c + 1 := by
  cases sec <;> simp [incrSection, totalCounts] <;> omega

lemma mem_bump_total {k : String} {sec : SectionType} {l : List (String × Counts)}
    (h : ∀ p ∈ l, 1 ≤ totalCounts p.2) :
    ∀ p ∈ bump k sec l, 1 ≤ totalCounts p.2 := by
  induction l with
  | nil =>
    intro p hp
    simp only [bump, List.mem_singleton] at hp
    subst hp
    simp [totalCounts_incrSection]
  | cons e rest ih =>
    obtain ⟨k1, c⟩ := e
    intro p hp
    simp only [bump] at hp
    by_cases hk : k1 = k
    · rw [if_pos hk] at hp
      rcases List.mem_cons.mp hp with hp1 | hp1
      · subst hp1
        simp only [totalCounts_incrSection]
        omega
      · exact h p (List.mem_cons_of_mem _ hp1)
    · rw [if_neg hk] at hp
      rcases List.mem_cons.mp hp with hp1 | hp1
      · subst hp1
        exact h _ (List.mem_cons_self _ _)
      · exact ih (fun q hq => h q (List.mem_cons_of_mem _ hq)) p hp1

lemma countMarks_total (marks : List Mark) :
    ∀ p ∈ countMarks marks, 1 ≤ totalCounts p.2 := by
  suffices hgen : ∀ acc : List (String × Counts), (∀ p ∈ acc, 1 ≤ totalCounts p.2) →
      ∀ p ∈ marks.foldl (fun a m => bump (markKey m) m.sec a) acc, 1 ≤ totalCounts p.2 by
    exact hgen [] (by simp)
  induction marks with
  | nil => intro acc h; exact h
  | cons m ms ih =>
    intro acc h
    rw [List.foldl_cons]
    exact ih (bump (markKey m) m.sec acc) (mem_bump_total h)

lemma countMarks_keys_eq_discoveryOrder (marks : List Mark) :
    (countMarks marks).map Prod.fst = discoveryOrder marks := by
  suffices hgen : ∀ acc : List (String × Counts),
      (marks.foldl (fun a m => bump (markKey m) m.sec a) acc).map Prod.fst =
        marks.foldl (fun ks m => if markKey m ∈ ks then ks else ks ++ [markKey m])
          (acc.map Prod.fst) by
    exact hgen []
  induction marks with
  | nil => intro acc; rfl
  | cons m ms ih =>
    intro acc
    rw [List.foldl_cons, List.foldl_cons, ih, bump_keys]

lemma generalRowsAux_length (defs : List ColorDef) (l : List (String × Counts)) :
    ∀ i, (generalRowsAux defs l i).length = l.length := by
  induction l with
  | nil => intro i; rfl
  | cons e rest ih => intro i; simp [generalRowsAux, ih]

lemma mem_generalRowsAux {defs : List ColorDef} {l : List (String × Counts)}
    {row : ReportRow} :
    ∀ {i : Nat}, row ∈ generalRowsAux defs l i → ∃ e ∈ l, ∃ j, row = generalRowOf defs j e := by
  induction l with
  | nil => intro i h; cases h
  | cons e rest ih =>
    intro i h
    rcases List.mem_cons.mp h with h | h
    · exact ⟨e, List.mem_cons_self _ _, i, h⟩
    · obtain ⟨e1, he1, j, hj⟩ := ih h
      exact ⟨e1, List.mem_cons_of_mem _ he1, j, hj⟩

lemma lookupN_bump0_ne {q k : String} (h : q ≠ k) (l : List (String × Nat)) :
    lookupN q (bump0 k l) = lookupN q l := by
  induction l with
  | nil =>
    simp only [bump0, lookupN]
    rw [if_neg (fun hk => h hk.symm)]
  | cons e rest ih =>
    obtain ⟨k1, n⟩ := e
    simp only [bump0]
    by_cases hk : k1 = k
    · rw [if_pos hk]
      subst hk
      simp only [lookupN]
      rw [if_neg (fun hq => h hq.symm), if_neg (fun hq => h hq.symm)]
    · rw [if_neg hk]
      simp only [lookupN]
      by_cases hq : k1 = q
      · rw [if_pos hq, if_pos hq]
      · rw [if_neg hq, if_neg hq]
        exact ih

lemma countMarks0_concat (ms : List Mark0) (m : Mark0) :
    countMarks0 (ms ++ [m]) = bump0 m.color (countMarks0 ms) := by
  simp [countMarks0, List.foldl_append]

lemma countColor_concat_ne {c : String} {m : Mark0} (h : c ≠ m.color)
    (ms : List Mark0) : countColor (ms ++ [m]) c = countColor ms c := by
  simp only [countColor, countMarks0_concat]
  rw [lookupN_bump0_ne h]

lemma reducedRowsAux_congr {marks1 marks2 : List Mark0} :
    ∀ (defs : List ColorDef), (∀ d ∈ defs, countColor marks1 d.color = countColor marks2 d.color) →
      ∀ i, reducedRowsAux marks1 defs i = reducedRowsAux marks2 defs i := by
  intro defs
  induction defs with
  | nil => intro _ i; rfl
  | cons d rest ih =>
    intro h i
    have hd := h d (List.mem_cons_self _ _)
    have hrest := fun d1 hd1 => h d1 (List.mem_cons_of_mem _ hd1)
    simp only [reducedRowsAux, hd, ih hrest]

lemma mem_reducedRowsAux {marks : List Mark0} {row : ReducedRow} :
    ∀ (defs : List ColorDef) (i : Nat), row ∈ reducedRowsAux marks defs i →
      ∃ j d, defs.get? j = some d ∧ row.no = i + j + 1 ∧ row.label = d.label ∧
        row.count = countColor marks d.color ∧ 0 < countColor marks d.color := by
  intro defs
  induction defs with
  | nil => intro i h; cases h
  | cons d rest ih =>
    intro i h
    simp only [reducedRowsAux] at h
    by_cases hc : countColor marks d.color > 0
    · rw [if_pos hc] at h
      rcases List.mem_cons.mp h with h1 | h1
      · subst h1
        exact ⟨0, d, rfl, by simp, rfl, rfl, hc⟩
      · obtain ⟨j, d1, hget, hno, hlab, hcnt, hpos⟩ := ih (i + 1) h1
        exact ⟨j + 1, d1, hget, by omega, hlab, hcnt, hpos⟩
    · rw [if_neg hc] at h
      obtain ⟨j, d1, hget, hno, hlab, hcnt, hpos⟩ := ih (i + 1) h
      exact ⟨j + 1, d1, hget, by omega, hlab, hcnt, hpos⟩

/-- Claim C1, counterexample: with the part_001 registry (red at position 0,
blue at position 6) and marks created blue first then red, the general-form
report emits the blue row before the red row — the row sequence is not ordered
by registry position, refuting "rows appear in ColorDefinition registry
order". -/
theorem c1_counterexample :
    rowColorsOfReport cexMarks = ["blue", "red"] ∧
    registryIndex colorDefsG "red" = 0 ∧ registryIndex colorDefsG "blue" = 6 ∧
    sortedByRegistry colorDefsG (rowColorsOfReport cexMarks) = false := by
  decide

/-- Claim C1 as amended: the rows of the general-form report appear in
group-discovery order — the group keys are emitted in order of each key's
first occurrence among the marks in creation order (`Object.entries` insertion
order), one row per key — and every emitted row covers at least one mark, so a
(color, thickness) group with zero marks produces no row. -/
theorem c1_amended_rows_in_discovery_order (defs : List ColorDef) (marks : List Mark) :
    (countMarks marks).map Prod.fst = discoveryOrder marks ∧
    (generalReportRows defs marks).length = (discoveryOrder marks).length ∧
    ∀ row ∈ generalReportRows defs marks,
      1 ≤ row.whole + row.halfVertical + row.halfHorizontal := by
  refine ⟨countMarks_keys_eq_discoveryOrder marks, ?_, ?_⟩
  · rw [generalReportRows, generalRowsAux_length, ← countMarks_keys_eq_discoveryOrder,
      List.length_map]
  · intro row hrow
    obtain ⟨e, he, j, hj⟩ := mem_generalRowsAux hrow
    have htot := countMarks_total marks e he
    subst hj
    simp only [generalRowOf]
    simp only [totalCounts] at htot
    omega

/-- Witness for the amended C1 on the blue-then-red mark list: the key order is
the discovery order, and the single blue row covers one mark. -/
theorem c1_amended_rows_in_discovery_order_witness :
    ((countMarks cexMarks).map Prod.fst = discoveryOrder cexMarks ∧
     (generalReportRows colorDefsG cexMarks).length = (discoveryOrder cexMarks).length ∧
     ∀ row ∈ generalReportRows colorDefsG cexMarks,
       1 ≤ row.whole + row.halfVertical + row.halfHorizontal) ∧
    ReportRow.mk 1 "Blue" "" 1 0 0 1 ∈ generalReportRows colorDefsG cexMarks ∧
    1 ≤ (ReportRow.mk 1 "Blue" "" 1 0 0 1).whole + (ReportRow.mk 1 "Blue" "" 1 0 0 1).halfVertical +
      (ReportRow.mk 1 "Blue" "" 1 0 0 1).halfHorizontal :=
  ⟨c1_amended_rows_in_discovery_order colorDefsG cexMarks, by decide,
   (c1_amended_rows_in_discovery_order colorDefsG cexMarks).2.2
     (ReportRow.mk 1 "Blue" "" 1 0 0 1) (by decide)⟩

/-- Claim C3, counterexample: a single mark with unregistered color "brown" DOES
contribute a row to the general-form report (labelled with the raw color key via
the `?? color` fallback), refuting "contributes no row to the registry-ordered
report" for the general form. -/
theorem c3_counterexample :
    "brown" ∉ colorDefsG.map ColorDef.color ∧
    generalReportRows colorDefsG [brownMark] = [⟨1, "brown", "", 1, 0, 0, 1⟩] := by
  decide

/-- Claim C3 as amended: a mark whose color key is not in the registry is
accepted by add without any validation (the appended mark carries whatever
`pointColor` holds); the reduced-form report silently excludes such marks
(appending one changes nothing); but the general-form report DOES emit a row
for it, using the raw color key as the label. -/
theorem c3_amended_unregistered_color (s : ViewerState) (p o : ℚ × ℚ) (newId : String)
    (hadd : s.addPointMode = true) (defs : List ColorDef) (marks : List Mark0) (m : Mark0)
    (hm : m.color ∉ defs.map ColorDef.color) :
    (handleAddTickClick p o newId s).marks = s.marks ++
      [{ id := newId, x := toImageSpace p.1 o.1 s.zoom, y := toImageSpace p.2 o.2 s.zoom,
         color := s.pointColor, thickness := s.pointThickness, sec := s.pointSection }] ∧
    reducedReportRows defs (marks ++ [m]) = reducedReportRows defs marks ∧
    generalReportRows colorDefsG [brownMark] = [⟨1, "brown", "", 1, 0, 0, 1⟩] := by
  refine ⟨?_, ?_, by decide⟩
  · unfold handleAddTickClick
    rw [if_pos hadd]
  · unfold reducedReportRows
    refine reducedRowsAux_congr defs ?_ 0
    intro d hd
    refine countColor_concat_ne ?_ marks
    intro hc
    exact hm (List.mem_map.mpr ⟨d, hd, hc⟩)

/-- Witness for the amended C3: in the add-mode state reached from the initial
state, a canvas click appends the described mark; appending a "brown" mark to a
one-yellow-mark store leaves the reduced report unchanged. -/
theorem c3_amended_unregistered_color_witness :
    ((toggleAddMode init).addPointMode = true ∧
     "brown" ∉ colorDefs0.map ColorDef.color) ∧
    ((handleAddTickClick (20, 20) (0, 0) "b" (toggleAddMode init)).marks =
       (toggleAddMode init).marks ++
       [{ id := "b", x := toImageSpace 20 0 (toggleAddMode init).zoom,
          y := toImageSpace 20 0 (toggleAddMode init).zoom,
          color := (toggleAddMode init).pointColor,
          thickness := (toggleAddMode init).pointThickness,
          sec := (toggleAddMode init).pointSection }] ∧
     reducedReportRows colorDefs0 ([Mark0.mk "y1" 0 0 "yellow"] ++ [Mark0.mk "b1" 0 0 "brown"]) =
       reducedReportRows colorDefs0 [Mark0.mk "y1" 0 0 "yellow"] ∧
     generalReportRows colorDefsG [brownMark] = [⟨1, "brown", "", 1, 0, 0, 1⟩]) :=
  ⟨⟨rfl, by decide⟩,
   c3_amended_unregistered_color (toggleAddMode init) (20, 20) (0, 0) "b" rfl
     colorDefs0 [Mark0.mk "y1" 0 0 "yellow"] (Mark0.mk "b1" 0 0 "brown") (by decide)⟩

/-- Claim C5: for every (color, thickness) group of the general-form report,
the bucket fields count exactly the group's marks with the matching section,
every emitted row carries those bucket fields, and its Sum column equals
whole + ceil(halfVertical/2) + ceil(halfHorizontal/2); in particular the
spec's three-mark example yields the single group red|20 with whole 1,
halfVertical 2, halfHorizontal 0 and sum 2. -/
theorem c5_sum_formula :
    (∀ (marks : List Mark) (k : String) (c : Counts), (k, c) ∈ countMarks marks →
      c.whole = countSec marks k SectionType.whole ∧
      c.halfVertical = countSec marks k SectionType.halfVertical ∧
      c.halfHorizontal = countSec marks k SectionType.halfHorizontal) ∧
    (∀ (defs : List ColorDef) (marks : List Mark) (row : ReportRow),
      row ∈ generalReportRows defs marks → ∃ k c, (k, c) ∈ countMarks marks ∧
        row.whole = c.whole ∧ row.halfVertical = c.halfVertical ∧
        row.halfHorizontal = c.halfHorizontal ∧
        row.sum = c.whole + ceilHalf c.halfVertical + ceilHalf c.halfHorizontal) ∧
    (countMarks exMarks = [("red|20", ⟨1, 2, 0⟩)] ∧
     generalReportRows colorDefsG exMarks = [⟨1, "Red", "20", 1, 2, 0, 2⟩] ∧
     (2 : Nat) = 1 + ceilHalf 2 + ceilHalf 0) := by
  refine ⟨?_, ?_, by decide, by decide, by decide⟩
  · intro marks k c h
    have := countMarks_mem_eq h
    subst this
    exact ⟨rfl, rfl, rfl⟩
  · intro defs marks row hrow
    obtain ⟨e, he, j, hj⟩ := mem_generalRowsAux hrow
    subst hj
    exact ⟨e.1, e.2, he, rfl, rfl, rfl, rfl⟩

/-- Witness for C5 at the spec's example group: the countMarks entry for
red|20 matches the claimed bucket counts and sum. -/
theorem c5_sum_formula_witness :
    (("red|20", Counts.mk 1 2 0) ∈ countMarks exMarks) ∧
    ((Counts.mk 1 2 0).whole = countSec exMarks "red|20" SectionType.whole ∧
     (Counts.mk 1 2 0).halfVertical = countSec exMarks "red|20" SectionType.halfVertical ∧
     (Counts.mk 1 2 0).halfHorizontal = countSec exMarks "red|20" SectionType.halfHorizontal) :=
  ⟨by decide, c5_sum_formula.1 exMarks "red|20" (Counts.mk 1 2 0) (by decide)⟩

/-- Claim C10: every emitted row of the reduced-form report takes its No field
from the 1-based registry position of its color (rows carry the registry
entry's label and positive count), so omitted zero-count colors leave gaps in
the numbering; in particular a single yellow mark against the part_000
registry yields the single row numbered 2, not 1. -/
theorem c10_reduced_no_is_registry_position :
    (∀ (defs : List ColorDef) (marks : List Mark0) (row : ReducedRow),
      row ∈ reducedReportRows defs marks → ∃ j d, defs.get? j = some d ∧
        row.no = j + 1 ∧ row.label = d.label ∧ row.count = countColor marks d.color ∧
        0 < countColor marks d.color) ∧
    reducedReportRows colorDefs0 [Mark0.mk "y1" 0 0 "yellow"] = [⟨2, "Yellow", 1⟩] := by
  refine ⟨?_, by decide⟩
  intro defs marks row hrow
  obtain ⟨j, d, hget, hno, hlab, hcnt, hpos⟩ := mem_reducedRowsAux defs 0 hrow
  exact ⟨j, d, hget, by omega, hlab, hcnt, hpos⟩

/-- Witness for C10 at the yellow-row example: the row numbered 2 is in the
report and the theorem locates its color at registry position 1 (1-based 2). -/
theorem c10_reduced_no_is_registry_position_witness :
    (ReducedRow.mk 2 "Yellow" 1 ∈ reducedReportRows colorDefs0 [Mark0.mk "y1" 0 0 "yellow"]) ∧
    (∃ j d, colorDefs0.get? j = some d ∧ (ReducedRow.mk 2 "Yellow" 1).no = j + 1 ∧
      (ReducedRow.mk 2 "Yellow" 1).label = d.label ∧
      (ReducedRow.mk 2 "Yellow" 1).count = countColor [Mark0.mk "y1" 0 0 "yellow"] d.color ∧
      0 < countColor [Mark0.mk "y1" 0 0 "yellow"] d.color) :=
  ⟨by decide, c10_reduced_no_is_registry_position.1 colorDefs0
    [Mark0.mk "y1" 0 0 "yellow"] (ReducedRow.mk 2 "Yellow" 1) (by decide)⟩

end PanelsCounter
